import Mathlib

/-!
Shallow embedding of the MongoDB bootstrap script of this repository
(init_mongo.js, the initializer run by init_db.js / mongosh).  The script's
three parts are embedded as executable Lean functions over an explicit
store state:

* ensureCollectionWithValidator - create a collection with a validator if
  absent, otherwise update its validator via collMod;
* ensureIndexes - create every index whose name is not already live,
  skipping present names without comparing definitions;
* the seed-if-empty block for the onboarding_steps collection.

JSON/BSON documents are modelled by the inductive JsValue.  The store is an
association list from collection names to collection states.  Every write
command the script issues is recorded in a trace (StoreOp), every print in an
output list, and failures of the underlying store are modelled by an oracle
that may refuse a write with a StoreErr: a refused write aborts the run,
returning the error together with the store state reached so far (a thrown
mongosh exception leaves all previous writes applied).
-/

/-- JSON-like values as passed around by the script.  Dates carry the clock
reading they were constructed from. -/
inductive JsValue where
  | null : JsValue
  | bool : Bool → JsValue
  | int : Int → JsValue
  | str : String → JsValue
  | date : Nat → JsValue
  | arr : List JsValue → JsValue
  | obj : List (String × JsValue) → JsValue

/-- Field lookup in an object field list (first occurrence wins). -/
def lookupField : List (String × JsValue) → String → Option JsValue
  | [], _ => none
  | (k, v) :: rest, key => if k = key then some v else lookupField rest key

/-- Field lookup on a JsValue; none on non-objects. -/
def JsValue.lookup : JsValue → String → Option JsValue
  | .obj fields, key => lookupField fields key
  | _, _ => none

/-- JavaScript Array.prototype.includes on a list of strings. -/
def includes : List String → String → Bool
  | [], _ => false
  | b :: bs, a => if b = a then true else includes bs a

/-- An index specification as passed to createIndex: key pattern (field,
direction), name, uniqueness, and the optional partial filter predicate
(field filterExpression; the option is absent = none in the script when a
spec does not set it). -/
structure IndexSpec where
  key : List (String × Int)
  name : String
  unique : Bool
  filterExpression : Option JsValue

/-- Live state of one collection in the store: the validator document and
validation policy recorded by createCollection/collMod, the live indexes,
and the stored documents. -/
structure Collection where
  validator : Option JsValue
  validationLevel : Option JsValue
  validationAction : Option JsValue
  indexes : List IndexSpec
  docs : List JsValue

/-- The store: an association list from collection name to collection
state. -/
abbrev DB := List (String × Collection)

/-- First-occurrence lookup of a collection. -/
def dbFind : DB → String → Option Collection
  | [], _ => none
  | (n, c) :: rest, name => if n = name then some c else dbFind rest name

/-- Replace the first binding of a name, or append a new one. -/
def dbSet : DB → String → Collection → DB
  | [], name, c => [(name, c)]
  | (n, c0) :: rest, name, c =>
      if n = name then (name, c) :: rest else (n, c0) :: dbSet rest name c

/-- db.getCollectionNames(). -/
def getCollectionNames (db : DB) : List String := db.map (fun p => p.1)

/-- coll.getIndexes() for a named collection ([] when absent). -/
def getIndexes (db : DB) (name : String) : List IndexSpec :=
  match dbFind db name with
  | some c => c.indexes
  | none => []

/-- coll.estimatedDocumentCount() for a named collection (0 when absent). -/
def estimatedDocumentCount (db : DB) (name : String) : Nat :=
  match dbFind db name with
  | some c => c.docs.length
  | none => 0

/-- The write commands the script can issue against the store. -/
inductive StoreOp where
  | createCollection (name : String) (opts : List (String × JsValue))
  | collMod (name : String) (validator : JsValue)
      (validationLevel validationAction : String)
  | createIndex (collName : String) (spec : IndexSpec)
  | insertMany (collName : String) (docs : List JsValue)

/-- A failure reported by the underlying store (connectivity, permission,
constraint violation, ...), surfaced in mongosh as a thrown error. -/
structure StoreErr where
  message : String
deriving DecidableEq

/-- Failure model of the store: for each attempted write, either accept it
(none) or refuse it with an error. -/
abbrev Oracle := StoreOp → Option StoreErr

/-- The always-succeeding store. -/
def noFail : Oracle := fun _ => none

/-- The _id_ index every MongoDB collection is created with. -/
def idIndex : IndexSpec :=
  { key := [("_id", 1)], name := "_id_", unique := false, filterExpression := none }

/-- Collection state resulting from createCollection with the given
options (the validator and validation policy are read off the options;
other createCollection options do not affect the state this model
tracks). -/
def collectionFromOpts (opts : List (String × JsValue)) : Collection :=
  { validator := lookupField opts "validator"
    validationLevel := lookupField opts "validationLevel"
    validationAction := lookupField opts "validationAction"
    indexes := [idIndex]
    docs := [] }

/-- Effect of an accepted write command on the store.  createIndex on a
name that is already live is a no-op (the script only issues it for names
it found absent); insertMany appends the documents in order. -/
def applyOp (op : StoreOp) (db : DB) : DB :=
  match op with
  | .createCollection name opts => dbSet db name (collectionFromOpts opts)
  | .collMod name v lvl act =>
      match dbFind db name with
      | some c =>
          dbSet db name
            { c with
              validator := some v
              validationLevel := some (.str lvl)
              validationAction := some (.str act) }
      | none => db
  | .createIndex name idx =>
      let c :=
        match dbFind db name with
        | some c => c
        | none =>
            { validator := none, validationLevel := none, validationAction := none,
              indexes := [idIndex], docs := [] }
      if includes (c.indexes.map (fun i => i.name)) idx.name then db
      else dbSet db name { c with indexes := c.indexes ++ [idx] }
  | .insertMany name ds =>
      match dbFind db name with
      | some c => dbSet db name { c with docs := c.docs ++ ds }
      | none =>
          dbSet db name
            { validator := none, validationLevel := none, validationAction := none,
              indexes := [idIndex], docs := ds }

/-- A run's state: the live store, the trace of accepted write commands,
and the printed output lines. -/
structure RunState where
  db : DB
  trace : List StoreOp
  output : List String

/-- Record a printed line. -/
def printLine (s : RunState) (msg : String) : RunState :=
  { s with output := s.output ++ [msg] }

/-- Issue one write command: the oracle may refuse it (the thrown error
aborts the run with the state reached so far, nothing is retried or rolled
back); an accepted command updates the store and is recorded in the
trace. -/
def runOp (fail : Oracle) (op : StoreOp) (s : RunState) :
    Except (StoreErr × RunState) RunState :=
  match fail op with
  | some e => .error (e, s)
  | none => .ok { s with db := applyOp op s.db, trace := s.trace ++ [op] }

/-- JavaScript Object.assign target source: target keys keep their order,
values overridden by source where present; source keys missing from target
are appended in source order. -/
def objectAssign (target source : List (String × JsValue)) :
    List (String × JsValue) :=
  target.map (fun p => (p.1,
    match lookupField source p.1 with
    | some v => v
    | none => p.2)) ++
  source.filter (fun p => (lookupField target p.1).isNone)

/-- The default createCollection options built by
ensureCollectionWithValidator before Object.assign with the caller's
options. -/
def defaultCreateOpts (validator : JsValue) : List (String × JsValue) :=
  [("validator", .obj [("$jsonSchema", validator)]),
   ("validationLevel", .str "moderate"),
   ("validationAction", .str "error")]

/-- ensureCollectionWithValidator(db, name, validator, options) from
init_mongo.js: if the name is absent from getCollectionNames, issue one
createCollection carrying Object.assign of the defaults and options;
otherwise issue one collMod with the validator, validationLevel moderate
and validationAction error.  (Print texts are embedded without the leading
check mark and quote characters.) -/
def ensureCollectionWithValidator (fail : Oracle) (name : String)
    (validator : JsValue) (options : List (String × JsValue)) (s : RunState) :
    Except (StoreErr × RunState) RunState :=
  let existing := includes (getCollectionNames s.db) name
  if !existing then
    let createOpts := objectAssign (defaultCreateOpts validator) options
    match runOp fail (.createCollection name createOpts) s with
    | .error es => .error es
    | .ok s' =>
        .ok (printLine s' ("Created collection " ++ name ++ " with schema validation"))
  else
    match runOp fail (.collMod name (.obj [("$jsonSchema", validator)]) "moderate" "error") s with
    | .error es => .error es
    | .ok s' =>
        .ok (printLine s' ("Updated validator for existing collection " ++ name))

/-- The forEach loop body of ensureIndexes: the existing-name list is the
one computed before the loop and is not refreshed between iterations. -/
def ensureIndexesLoop (fail : Oracle) (name : String) (existing : List String) :
    List IndexSpec → RunState → Except (StoreErr × RunState) RunState
  | [], s => .ok s
  | idx :: rest, s =>
      if !(includes existing idx.name) then
        match runOp fail (.createIndex name idx) s with
        | .error es => .error es
        | .ok s' =>
            ensureIndexesLoop fail name existing rest
              (printLine s' ("Created index " ++ idx.name ++ " on collection " ++ name))
      else
        ensureIndexesLoop fail name existing rest
          (printLine s ("Index " ++ idx.name ++ " already exists on " ++ name))

/-- ensureIndexes(db, name, indexSpecs) from init_mongo.js: fetch the live
index names once, then create exactly the specs whose name is absent from
that list (no comparison of key, uniqueness or filter is made for present
names). -/
def ensureIndexes (fail : Oracle) (name : String) (indexSpecs : List IndexSpec)
    (s : RunState) : Except (StoreErr × RunState) RunState :=
  let existing := (getIndexes s.db name).map (fun i => i.name)
  ensureIndexesLoop fail name existing indexSpecs s

/-- The users collection JSON schema from init_mongo.js (description
strings embedded with apostrophe and quote characters elided). -/
def usersSchema : JsValue := .obj
  [("bsonType", .str "object"),
   ("required", .arr [.str "email", .str "passwordHash", .str "onboarding"]),
   ("additionalProperties", .bool true),
   ("properties", .obj
     [("_id", .obj [("bsonType", .arr [.str "objectId"])]),
      ("email", .obj
        [("bsonType", .str "string"),
         ("description", .str "Users email; unique, lowercased")]),
      ("username", .obj
        [("bsonType", .arr [.str "string", .str "null"]),
         ("description", .str "Optional username; unique if present")]),
      ("passwordHash", .obj
        [("bsonType", .arr [.str "string", .str "null"]),
         ("description", .str "BCrypt/Argon2 hashed password; null when OAuth-only")]),
      ("oauthProvider", .obj
        [("bsonType", .arr [.str "string", .str "null"]),
         ("enum", .arr [.null, .str "google", .str "apple"]),
         ("description", .str "OAuth provider name if used")]),
      ("oauthProviderId", .obj
        [("bsonType", .arr [.str "string", .str "null"]),
         ("description", .str "Providers unique user ID if OAuth used")]),
      ("emailVerified", .obj
        [("bsonType", .str "bool"),
         ("description", .str "Has the user verified their email"),
         ("default", .bool false)]),
      ("onboarding", .obj
        [("bsonType", .str "object"),
         ("required", .arr [.str "currentStep", .str "completedSteps"]),
         ("properties", .obj
           [("currentStep", .obj
              [("bsonType", .str "int"), ("minimum", .int 0),
               ("description", .str "Current onboarding step index")]),
            ("completedSteps", .obj
              [("bsonType", .str "array"),
               ("items", .obj [("bsonType", .str "string")]),
               ("description", .str "List of completed step identifiers")]),
            ("startedAt", .obj [("bsonType", .arr [.str "date", .str "null"])]),
            ("completedAt", .obj [("bsonType", .arr [.str "date", .str "null"])])])]),
      ("createdAt", .obj [("bsonType", .str "date")]),
      ("updatedAt", .obj [("bsonType", .str "date")]),
      ("lastLoginAt", .obj [("bsonType", .arr [.str "date", .str "null"])]),
      ("profile", .obj
        [("bsonType", .arr [.str "object", .str "null"]),
         ("additionalProperties", .bool true),
         ("properties", .obj
           [("firstName", .obj [("bsonType", .arr [.str "string", .str "null"])]),
            ("lastName", .obj [("bsonType", .arr [.str "string", .str "null"])]),
            ("country", .obj [("bsonType", .arr [.str "string", .str "null"])]),
            ("timezone", .obj [("bsonType", .arr [.str "string", .str "null"])]),
            ("marketingOptIn", .obj [("bsonType", .arr [.str "bool", .str "null"])])])])])]

/-- The onboarding_steps collection JSON schema from init_mongo.js. -/
def onboardingStepsSchema : JsValue := .obj
  [("bsonType", .str "object"),
   ("required", .arr [.str "key", .str "order", .str "title"]),
   ("additionalProperties", .bool true),
   ("properties", .obj
     [("_id", .obj [("bsonType", .arr [.str "objectId"])]),
      ("key", .obj
        [("bsonType", .str "string"),
         ("description", .str "Unique step identifier (e.g., account, profile, preferences)")]),
      ("order", .obj
        [("bsonType", .str "int"), ("minimum", .int 0),
         ("description", .str "Display order for the step")]),
      ("title", .obj [("bsonType", .str "string")]),
      ("description", .obj [("bsonType", .arr [.str "string", .str "null"])]),
      ("isRequired", .obj [("bsonType", .str "bool")]),
      ("createdAt", .obj [("bsonType", .str "date")]),
      ("updatedAt", .obj [("bsonType", .str "date")])])]

/-- The index specs the script passes to ensureIndexes for users. -/
def usersIndexSpecs : List IndexSpec :=
  [{ key := [("email", 1)], name := "uniq_email", unique := true,
     filterExpression := none },
   { key := [("username", 1)], name := "uniq_username", unique := true,
     filterExpression := some (.obj [("username", .obj [("$type", .str "string")])]) },
   { key := [("oauthProvider", 1), ("oauthProviderId", 1)], name := "oauth_provider_id",
     unique := true,
     filterExpression := some (.obj
       [("oauthProvider", .obj [("$type", .str "string")]),
        ("oauthProviderId", .obj [("$type", .str "string")])]) },
   { key := [("onboarding.currentStep", 1)], name := "onboarding_currentStep",
     unique := false, filterExpression := none },
   { key := [("createdAt", -1)], name := "createdAt_desc", unique := false,
     filterExpression := none },
   { key := [("updatedAt", -1)], name := "updatedAt_desc", unique := false,
     filterExpression := none }]

/-- The index specs the script passes to ensureIndexes for
onboarding_steps. -/
def onboardingStepsIndexSpecs : List IndexSpec :=
  [{ key := [("key", 1)], name := "uniq_key", unique := true,
     filterExpression := none },
   { key := [("order", 1)], name := "order_asc", unique := false,
     filterExpression := none }]

/-- The four seed documents the script passes to insertMany, in source
order; now is the single clock reading taken just before the insert. -/
def seedSteps (now : Nat) : List JsValue :=
  [.obj [("key", .str "account"), ("order", .int 0),
         ("title", .str "Create Account"),
         ("description", .str "Set your email and password or use an OAuth provider."),
         ("isRequired", .bool true),
         ("createdAt", .date now), ("updatedAt", .date now)],
   .obj [("key", .str "profile"), ("order", .int 1),
         ("title", .str "Complete Profile"),
         ("description", .str "Tell us about yourself to personalize your experience."),
         ("isRequired", .bool true),
         ("createdAt", .date now), ("updatedAt", .date now)],
   .obj [("key", .str "preferences"), ("order", .int 2),
         ("title", .str "Preferences"),
         ("description", .str "Choose your interests and notification settings."),
         ("isRequired", .bool false),
         ("createdAt", .date now), ("updatedAt", .date now)],
   .obj [("key", .str "summary"), ("order", .int 3),
         ("title", .str "Summary"),
         ("description", .str "Review and confirm your details."),
         ("isRequired", .bool true),
         ("createdAt", .date now), ("updatedAt", .date now)]]

/-- The seed-if-empty block of init_mongo.js for onboarding_steps: read the
estimated document count; when zero take one clock reading and bulk insert
the four seed documents, otherwise write nothing and print the existing
count. -/
def seedOnboardingStepsIfEmpty (fail : Oracle) (now : Nat) (s : RunState) :
    Except (StoreErr × RunState) RunState :=
  let existingCount := estimatedDocumentCount s.db "onboarding_steps"
  if existingCount = 0 then
    match runOp fail (.insertMany "onboarding_steps" (seedSteps now)) s with
    | .error es => .error es
    | .ok s' => .ok (printLine s' "Seeded onboarding_steps with default steps")
  else
    .ok (printLine s
      ("onboarding_steps already contains " ++ toString existingCount ++ " documents"))

/-- The whole init_mongo.js run: ensure both collections, ensure both index
sets, then seed onboarding_steps if empty.  A store failure at any step
aborts the rest of the sequence. -/
def initMongo (fail : Oracle) (now : Nat) (s : RunState) :
    Except (StoreErr × RunState) RunState :=
  match ensureCollectionWithValidator fail "users" usersSchema [] s with
  | .error es => .error es
  | .ok s1 =>
    match ensureCollectionWithValidator fail "onboarding_steps" onboardingStepsSchema [] s1 with
    | .error es => .error es
    | .ok s2 =>
      match ensureIndexes fail "users" usersIndexSpecs s2 with
      | .error es => .error es
      | .ok s3 =>
        match ensureIndexes fail "onboarding_steps" onboardingStepsIndexSpecs s3 with
        | .error es => .error es
        | .ok s4 => seedOnboardingStepsIfEmpty fail now s4

/-- Is an op a createCollection command. -/
def StoreOp.isCreateCollection : StoreOp → Bool
  | .createCollection _ _ => true
  | _ => false

/-- Is an op a collMod command. -/
def StoreOp.isCollMod : StoreOp → Bool
  | .collMod _ _ _ _ => true
  | _ => false

/-- Is an op a createIndex command. -/
def StoreOp.isCreateIndex : StoreOp → Bool
  | .createIndex _ _ => true
  | _ => false

/-- Is an op an insertMany command. -/
def StoreOp.isInsertMany : StoreOp → Bool
  | .insertMany _ _ => true
  | _ => false

/-- Name of the collection a createCollection op creates. -/
def StoreOp.createdCollectionName : StoreOp → Option String
  | .createCollection name _ => some name
  | _ => none

/-- Collection and index name of a createIndex op. -/
def StoreOp.createdIndexInfo : StoreOp → Option (String × String)
  | .createIndex coll idx => some (coll, idx.name)
  | _ => none

/-- Collection and document count of an insertMany op. -/
def StoreOp.insertedDocsInfo : StoreOp → Option (String × Nat)
  | .insertMany coll ds => some (coll, ds.length)
  | _ => none

/-- The validation action a command attaches to a collection:
createCollection reads it off its options, collMod carries it directly. -/
def StoreOp.issuedValidationAction : StoreOp → Option JsValue
  | .createCollection _ opts => lookupField opts "validationAction"
  | .collMod _ _ _ act => some (.str act)
  | _ => none

/-- The validation level a command attaches to a collection. -/
def StoreOp.issuedValidationLevel : StoreOp → Option JsValue
  | .createCollection _ opts => lookupField opts "validationLevel"
  | .collMod _ _ lvl _ => some (.str lvl)
  | _ => none

/-- Does a createCollection op carry a validator in its options. -/
def StoreOp.carriesValidator : StoreOp → Bool
  | .createCollection _ opts => (lookupField opts "validator").isSome
  | _ => false

/-- The empty store a fresh database presents. -/
def freshState : RunState := { db := [], trace := [], output := [] }

/-! Basic lemmas about the store's association list. -/

theorem includes_iff_mem (l : List String) (a : String) :
    includes l a = true ↔ a ∈ l := by
  induction l with
  | nil => simp [includes]
  | cons b bs ih =>
      by_cases h : b = a
      · subst h; simp [includes]
      · simp [includes, h, ih, Ne.symm h]

theorem includes_of_dbFind_some {db : DB} {name : String} {c : Collection}
    (h : dbFind db name = some c) :
    includes (getCollectionNames db) name = true := by
  induction db with
  | nil => simp [dbFind] at h
  | cons p rest ih =>
      obtain ⟨n, c0⟩ := p
      by_cases hn : n = name
      · simp [getCollectionNames, includes, hn]
      · rw [dbFind, if_neg hn] at h
        simpa [getCollectionNames, includes, hn] using ih h

theorem dbFind_eq_none_of_not_includes {db : DB} {name : String}
    (h : includes (getCollectionNames db) name = false) :
    dbFind db name = none := by
  induction db with
  | nil => rfl
  | cons p rest ih =>
      obtain ⟨n, c0⟩ := p
      by_cases hn : n = name
      · simp [getCollectionNames, includes, hn] at h
      · rw [getCollectionNames] at h
        simp only [List.map_cons, includes, if_neg hn] at h
        rw [dbFind, if_neg hn]
        exact ih h

theorem dbSet_of_dbFind_some {db : DB} {name : String} {c : Collection}
    (h : dbFind db name = some c) : dbSet db name c = db := by
  induction db with
  | nil => simp [dbFind] at h
  | cons p rest ih =>
      obtain ⟨n, c0⟩ := p
      by_cases hn : n = name
      · rw [dbFind, if_pos hn] at h
        rw [dbSet, if_pos hn, ← hn]
        cases h; rfl
      · rw [dbFind, if_neg hn] at h
        rw [dbSet, if_neg hn, ih h]

theorem dbFind_dbSet_self (db : DB) (name : String) (c : Collection) :
    dbFind (dbSet db name c) name = some c := by
  induction db with
  | nil => simp [dbSet, dbFind]
  | cons p rest ih =>
      obtain ⟨n, c0⟩ := p
      by_cases hn : n = name
      · rw [dbSet, if_pos hn, dbFind, if_pos rfl]
      · rw [dbSet, if_neg hn, dbFind, if_neg hn]
        exact ih

theorem dbFind_dbSet_ne {n name : String} (db : DB) (c : Collection)
    (h : n ≠ name) : dbFind (dbSet db name c) n = dbFind db n := by
  induction db with
  | nil => simp [dbSet, dbFind, Ne.symm h]
  | cons p rest ih =>
      obtain ⟨m, c0⟩ := p
      by_cases hm : m = name
      · rw [dbSet, if_pos hm, dbFind, if_neg (fun hh => h hh.symm), dbFind, hm,
            if_neg (fun hh : name = n => h hh.symm)]
      · rw [dbSet, if_neg hm, dbFind, dbFind]
        by_cases hmn : m = n
        · rw [if_pos hmn, if_pos hmn]
        · rw [if_neg hmn, if_neg hmn, ih]

theorem objectAssign_nil (t : List (String × JsValue)) : objectAssign t [] = t := by
  simp [objectAssign, lookupField]

/-! Branch behaviour of ensureCollectionWithValidator under the
always-succeeding store. -/

theorem ensureCollection_create_eq {name : String} {v : JsValue}
    {opts : List (String × JsValue)} {s : RunState}
    (h : includes (getCollectionNames s.db) name = false) :
    ensureCollectionWithValidator noFail name v opts s =
      .ok { db := dbSet s.db name
              (collectionFromOpts (objectAssign (defaultCreateOpts v) opts))
            trace := s.trace ++ [.createCollection name (objectAssign (defaultCreateOpts v) opts)]
            output := s.output ++ ["Created collection " ++ name ++ " with schema validation"] } := by
  simp [ensureCollectionWithValidator, h, runOp, noFail, applyOp, printLine]

theorem ensureCollection_update_eq {name : String} {v : JsValue}
    {opts : List (String × JsValue)} {s : RunState} {c : Collection}
    (h : dbFind s.db name = some c) :
    ensureCollectionWithValidator noFail name v opts s =
      .ok { db := dbSet s.db name
              { c with
                validator := some (.obj [("$jsonSchema", v)])
                validationLevel := some (.str "moderate")
                validationAction := some (.str "error") }
            trace := s.trace ++ [.collMod name (.obj [("$jsonSchema", v)]) "moderate" "error"]
            output := s.output ++ ["Updated validator for existing collection " ++ name] } := by
  simp [ensureCollectionWithValidator, includes_of_dbFind_some h, runOp, noFail,
        applyOp, h, printLine]

/-- The collection-level state ensureCollectionWithValidator establishes
for its target (with the script's empty options): the wrapped validator,
level moderate, action error. -/
def validatorNormalized (v : JsValue) (c : Collection) : Prop :=
  c.validator = some (.obj [("$jsonSchema", v)]) ∧
  c.validationLevel = some (.str "moderate") ∧
  c.validationAction = some (.str "error")

theorem not_includes_of_dbFind_none {db : DB} {name : String}
    (h : dbFind db name = none) :
    includes (getCollectionNames db) name = false := by
  induction db with
  | nil => rfl
  | cons p rest ih =>
      obtain ⟨n, c0⟩ := p
      by_cases hn : n = name
      · rw [dbFind, if_pos hn] at h; cases h
      · rw [dbFind, if_neg hn] at h
        rw [getCollectionNames]
        simp only [List.map_cons, includes, if_neg hn]
        exact ih h

theorem ensureCollection_establishes (name : String) (v : JsValue) (s : RunState) :
    ∃ s', ensureCollectionWithValidator noFail name v [] s = .ok s' ∧
      (∃ c', dbFind s'.db name = some c' ∧ validatorNormalized v c') ∧
      (∀ n, n ≠ name → dbFind s'.db n = dbFind s.db n) := by
  cases hf : dbFind s.db name with
  | some c =>
      refine ⟨_, ensureCollection_update_eq hf, ?_, ?_⟩
      · refine ⟨_, dbFind_dbSet_self s.db name _, ?_⟩
        exact ⟨rfl, rfl, rfl⟩
      · intro n hn
        exact dbFind_dbSet_ne s.db _ hn
  | none =>
      have hinc : includes (getCollectionNames s.db) name = false :=
        not_includes_of_dbFind_none hf
      refine ⟨_, ensureCollection_create_eq hinc, ?_, ?_⟩
      · refine ⟨_, dbFind_dbSet_self s.db name _, ?_, ?_, ?_⟩
        · simp [collectionFromOpts, objectAssign_nil, defaultCreateOpts, lookupField]
        · simp [collectionFromOpts, objectAssign_nil, defaultCreateOpts, lookupField]
        · simp [collectionFromOpts, objectAssign_nil, defaultCreateOpts, lookupField]
      · intro n hn
        exact dbFind_dbSet_ne s.db _ hn

theorem ensureCollection_idem {name : String} {v : JsValue} {s : RunState}
    {c : Collection} (hf : dbFind s.db name = some c)
    (hn : validatorNormalized v c) :
    ∃ s', ensureCollectionWithValidator noFail name v [] s = .ok s' ∧
      s'.db = s.db := by
  obtain ⟨h1, h2, h3⟩ := hn
  refine ⟨_, ensureCollection_update_eq hf, ?_⟩
  have hc : { c with
      validator := some (JsValue.obj [("$jsonSchema", v)])
      validationLevel := some (JsValue.str "moderate")
      validationAction := some (JsValue.str "error") } = c := by
    obtain ⟨cv, cl, ca, ci, cd⟩ := c
    simp only at h1 h2 h3
    simp [h1, h2, h3]
  simp only [hc]
  exact dbSet_of_dbFind_some hf

/-! The ensureIndexes loop under the always-succeeding store: it equals a
pure fold, whose effects are then characterized. -/

/-- One iteration of the ensureIndexes forEach under the always-succeeding
store. -/
def applyIndexStep (cname : String) (existing : List String) (s : RunState)
    (idx : IndexSpec) : RunState :=
  if includes existing idx.name then
    printLine s ("Index " ++ idx.name ++ " already exists on " ++ cname)
  else
    printLine
      { s with db := applyOp (.createIndex cname idx) s.db,
               trace := s.trace ++ [.createIndex cname idx] }
      ("Created index " ++ idx.name ++ " on collection " ++ cname)

theorem ensureIndexesLoop_eq_foldl (cname : String) (existing : List String) :
    ∀ (specs : List IndexSpec) (s : RunState),
      ensureIndexesLoop noFail cname existing specs s =
        .ok (specs.foldl (applyIndexStep cname existing) s) := by
  intro specs
  induction specs with
  | nil => intro s; rfl
  | cons idx rest ih =>
      intro s
      rw [ensureIndexesLoop, List.foldl_cons]
      cases hinc : includes existing idx.name with
      | true => simp [hinc, applyIndexStep, ih]
      | false => simp [hinc, runOp, noFail, applyIndexStep, ih]

theorem foldl_applyIndexStep_trace (cname : String) (existing : List String) :
    ∀ (specs : List IndexSpec) (s : RunState),
      (specs.foldl (applyIndexStep cname existing) s).trace =
        s.trace ++
          (specs.filter (fun idx => !(includes existing idx.name))).map
            (fun idx => StoreOp.createIndex cname idx) := by
  intro specs
  induction specs with
  | nil => intro s; simp
  | cons idx rest ih =>
      intro s
      rw [List.foldl_cons]
      cases hinc : includes existing idx.name with
      | true => simp [ih, applyIndexStep, hinc, printLine]
      | false => simp [ih, applyIndexStep, hinc, printLine]

theorem foldl_applyIndexStep_db (cname : String) (existing : List String) :
    ∀ (specs : List IndexSpec) (s : RunState),
      (specs.foldl (applyIndexStep cname existing) s).db =
        specs.foldl
          (fun db idx =>
            if includes existing idx.name then db
            else applyOp (.createIndex cname idx) db) s.db := by
  intro specs
  induction specs with
  | nil => intro s; rfl
  | cons idx rest ih =>
      intro s
      rw [List.foldl_cons, List.foldl_cons]
      cases hinc : includes existing idx.name with
      | true => simp [ih, applyIndexStep, hinc, printLine]
      | false => simp [ih, applyIndexStep, hinc, printLine]

/-- The db-level effect of one accepted createIndex on other collections. -/
theorem applyOp_createIndex_other {cname n : String} (db : DB) (idx : IndexSpec)
    (h : n ≠ cname) :
    dbFind (applyOp (.createIndex cname idx) db) n = dbFind db n := by
  rw [applyOp]
  cases hf : dbFind db cname with
  | some c =>
      simp only [hf]
      cases hinc : includes (c.indexes.map (fun i => i.name)) idx.name with
      | true => simp [hinc]
      | false => simp [hinc, dbFind_dbSet_ne db _ h]
  | none =>
      simp only [hf]
      cases hinc : includes ([idIndex].map (fun i => i.name)) idx.name with
      | true => simp [hinc]
      | false => simp [hinc, dbFind_dbSet_ne db _ h]

theorem includes_append_left {l1 : List String} (l2 : List String) {a : String}
    (h : includes l1 a = true) : includes (l1 ++ l2) a = true := by
  rw [includes_iff_mem] at h ⊢
  exact List.mem_append_left l2 h

theorem includes_append_right (l1 : List String) {l2 : List String} {a : String}
    (h : includes l2 a = true) : includes (l1 ++ l2) a = true := by
  rw [includes_iff_mem] at h ⊢
  exact List.mem_append_right l1 h

/-- The db-level effect of one accepted createIndex on its target
collection: validator fields and documents are untouched, live index names
only grow, and the requested name is live afterwards. -/
theorem applyOp_createIndex_target {cname : String} {db : DB} {c : Collection}
    (idx : IndexSpec) (hf : dbFind db cname = some c) :
    ∃ c', dbFind (applyOp (.createIndex cname idx) db) cname = some c' ∧
      c'.validator = c.validator ∧ c'.validationLevel = c.validationLevel ∧
      c'.validationAction = c.validationAction ∧ c'.docs = c.docs ∧
      (∀ nm, includes (c.indexes.map (fun i => i.name)) nm = true →
        includes (c'.indexes.map (fun i => i.name)) nm = true) ∧
      includes (c'.indexes.map (fun i => i.name)) idx.name = true := by
  rw [applyOp]
  simp only [hf]
  cases hinc : includes (c.indexes.map (fun i => i.name)) idx.name with
  | true =>
      refine ⟨c, ?_, rfl, rfl, rfl, rfl, fun nm h => h, hinc⟩
      rw [if_pos rfl]
      exact hf
  | false =>
      rw [if_neg (by simp)]
      refine ⟨{ c with indexes := c.indexes ++ [idx] },
        dbFind_dbSet_self db cname _, rfl, rfl, rfl, rfl, ?_, ?_⟩
      · intro nm h
        dsimp only
        simp only [List.map_append]
        exact includes_append_left _ h
      · dsimp only
        simp only [List.map_append]
        exact includes_append_right _ (by simp [includes])

/-- The db-level index fold of ensureIndexes: the abbreviation used by the
fold lemmas below. -/
def foldIndexOps (cname : String) (existing : List String)
    (specs : List IndexSpec) (db : DB) : DB :=
  specs.foldl
    (fun db idx =>
      if includes existing idx.name then db
      else applyOp (.createIndex cname idx) db) db

theorem foldIndexOps_other (cname : String) (existing : List String) :
    ∀ (specs : List IndexSpec) (db : DB) (n : String), n ≠ cname →
      dbFind (foldIndexOps cname existing specs db) n = dbFind db n := by
  intro specs
  induction specs with
  | nil => intro db n _; rfl
  | cons idx rest ih =>
      intro db n h
      rw [foldIndexOps, List.foldl_cons]
      cases hinc : includes existing idx.name with
      | true => simpa [hinc, foldIndexOps] using ih db n h
      | false =>
          rw [if_neg (by simp)]
          rw [show (rest.foldl _ _ : DB) = foldIndexOps cname existing rest
                (applyOp (.createIndex cname idx) db) from rfl]
          rw [ih _ n h]
          exact applyOp_createIndex_other db idx h

theorem foldIndexOps_target (cname : String) (existing : List String) :
    ∀ (specs : List IndexSpec) (db : DB) (c : Collection),
      dbFind db cname = some c →
      ∃ c', dbFind (foldIndexOps cname existing specs db) cname = some c' ∧
        c'.validator = c.validator ∧ c'.validationLevel = c.validationLevel ∧
        c'.validationAction = c.validationAction ∧ c'.docs = c.docs ∧
        (∀ nm, includes (c.indexes.map (fun i => i.name)) nm = true →
          includes (c'.indexes.map (fun i => i.name)) nm = true) ∧
        (∀ idx, idx ∈ specs → includes existing idx.name = false →
          includes (c'.indexes.map (fun i => i.name)) idx.name = true) := by
  intro specs
  induction specs with
  | nil =>
      intro db c hf
      exact ⟨c, hf, rfl, rfl, rfl, rfl, fun nm h => h, fun idx h => absurd h (by simp)⟩
  | cons idx rest ih =>
      intro db c hf
      rw [foldIndexOps, List.foldl_cons]
      cases hinc : includes existing idx.name with
      | true =>
          rw [if_pos rfl]
          obtain ⟨c', h1, h2, h3, h4, h5, h6, h7⟩ := ih db c hf
          refine ⟨c', h1, h2, h3, h4, h5, h6, ?_⟩
          intro idx0 hmem hex
          cases hmem with
          | head => rw [hex] at hinc; cases hinc
          | tail _ ht => exact h7 idx0 ht hex
      | false =>
          rw [if_neg (by simp)]
          obtain ⟨c1, g1, g2, g3, g4, g5, g6, g7⟩ := applyOp_createIndex_target idx hf
          obtain ⟨c', h1, h2, h3, h4, h5, h6, h7⟩ := ih _ c1 g1
          refine ⟨c', h1, h2.trans g2, h3.trans g3, h4.trans g4, h5.trans g5,
            fun nm h => h6 nm (g6 nm h), ?_⟩
          intro idx0 hmem hex
          cases hmem with
          | head => exact h6 _ g7
          | tail _ ht => exact h7 idx0 ht hex

theorem foldIndexOps_noop (cname : String) (existing : List String) :
    ∀ (specs : List IndexSpec) (db : DB),
      (∀ idx ∈ specs, includes existing idx.name = true) →
      foldIndexOps cname existing specs db = db := by
  intro specs
  induction specs with
  | nil => intro db _; rfl
  | cons idx rest ih =>
      intro db hall
      rw [foldIndexOps, List.foldl_cons, if_pos]
      · exact ih db (fun i hi => hall i (List.mem_cons_of_mem idx hi))
      · exact hall idx (List.mem_cons_self idx rest)

theorem ensureIndexes_ok (cname : String) (specs : List IndexSpec) (s : RunState) :
    ensureIndexes noFail cname specs s =
      .ok (specs.foldl
        (applyIndexStep cname ((getIndexes s.db cname).map (fun i => i.name))) s) := by
  rw [ensureIndexes]
  exact ensureIndexesLoop_eq_foldl cname _ specs s

theorem ensureIndexes_establishes {cname : String} (specs : List IndexSpec)
    {s : RunState} {c : Collection} (hf : dbFind s.db cname = some c) :
    ∃ s', ensureIndexes noFail cname specs s = .ok s' ∧
      (∃ c', dbFind s'.db cname = some c' ∧
        c'.validator = c.validator ∧ c'.validationLevel = c.validationLevel ∧
        c'.validationAction = c.validationAction ∧ c'.docs = c.docs ∧
        (∀ idx ∈ specs, includes (c'.indexes.map (fun i => i.name)) idx.name = true)) ∧
      (∀ n, n ≠ cname → dbFind s'.db n = dbFind s.db n) := by
  have hex : (getIndexes s.db cname).map (fun i => i.name) =
      c.indexes.map (fun i => i.name) := by
    rw [getIndexes, hf]
  refine ⟨_, ensureIndexes_ok cname specs s, ?_, ?_⟩
  · rw [foldl_applyIndexStep_db, hex]
    obtain ⟨c', h1, h2, h3, h4, h5, h6, h7⟩ :=
      foldIndexOps_target cname (c.indexes.map (fun i => i.name)) specs s.db c hf
    refine ⟨c', h1, h2, h3, h4, h5, ?_⟩
    intro idx hmem
    cases hin : includes (c.indexes.map (fun i => i.name)) idx.name with
    | true => exact h6 idx.name hin
    | false => exact h7 idx hmem hin
  · intro n hn
    rw [foldl_applyIndexStep_db, hex]
    exact foldIndexOps_other cname _ specs s.db n hn

theorem ensureIndexes_noop {cname : String} {specs : List IndexSpec}
    {s : RunState} {c : Collection} (hf : dbFind s.db cname = some c)
    (hall : ∀ idx ∈ specs, includes (c.indexes.map (fun i => i.name)) idx.name = true) :
    ∃ s', ensureIndexes noFail cname specs s = .ok s' ∧ s'.db = s.db := by
  have hex : (getIndexes s.db cname).map (fun i => i.name) =
      c.indexes.map (fun i => i.name) := by
    rw [getIndexes, hf]
  refine ⟨_, ensureIndexes_ok cname specs s, ?_⟩
  rw [foldl_applyIndexStep_db, hex]
  exact foldIndexOps_noop cname _ specs s.db hall

/-! The seed-if-empty block under the always-succeeding store. -/

theorem seed_skip_eq {now : Nat} {s : RunState}
    (h : estimatedDocumentCount s.db "onboarding_steps" ≠ 0) :
    seedOnboardingStepsIfEmpty noFail now s =
      .ok (printLine s
        ("onboarding_steps already contains " ++
          toString (estimatedDocumentCount s.db "onboarding_steps") ++ " documents")) := by
  rw [seedOnboardingStepsIfEmpty, if_neg h]

theorem seed_insert_eq {now : Nat} {s : RunState}
    (h : estimatedDocumentCount s.db "onboarding_steps" = 0) :
    seedOnboardingStepsIfEmpty noFail now s =
      .ok (printLine
        { s with db := applyOp (.insertMany "onboarding_steps" (seedSteps now)) s.db,
                 trace := s.trace ++ [.insertMany "onboarding_steps" (seedSteps now)] }
        "Seeded onboarding_steps with default steps") := by
  rw [seedOnboardingStepsIfEmpty, if_pos h]
  rfl

theorem seed_establishes {now : Nat} {s : RunState} {c : Collection}
    (hf : dbFind s.db "onboarding_steps" = some c) :
    ∃ s', seedOnboardingStepsIfEmpty noFail now s = .ok s' ∧
      (∃ c', dbFind s'.db "onboarding_steps" = some c' ∧
        c'.validator = c.validator ∧ c'.validationLevel = c.validationLevel ∧
        c'.validationAction = c.validationAction ∧ c'.indexes = c.indexes ∧
        c'.docs.length ≠ 0) ∧
      (∀ n, n ≠ "onboarding_steps" → dbFind s'.db n = dbFind s.db n) := by
  cases hz : c.docs.length with
  | zero =>
      have hcount : estimatedDocumentCount s.db "onboarding_steps" = 0 := by
        simp [estimatedDocumentCount, hf, hz]
      refine ⟨_, seed_insert_eq hcount, ?_, ?_⟩
      · refine ⟨{ c with docs := c.docs ++ seedSteps now }, ?_, rfl, rfl, rfl, rfl, ?_⟩
        · simp only [printLine, applyOp, hf]
          exact dbFind_dbSet_self s.db _ _
        · dsimp only
          simp [seedSteps]
      · intro n hn
        simp only [printLine, applyOp, hf]
        exact dbFind_dbSet_ne s.db _ hn
  | succ k =>
      have hcount : estimatedDocumentCount s.db "onboarding_steps" ≠ 0 := by
        simp [estimatedDocumentCount, hf, hz]
      refine ⟨_, seed_skip_eq hcount, ?_, ?_⟩
      · exact ⟨c, hf, rfl, rfl, rfl, rfl, by rw [hz]; exact Nat.succ_ne_zero k⟩
      · intro n _; rfl

theorem seed_noop {now : Nat} {s : RunState}
    (h : estimatedDocumentCount s.db "onboarding_steps" ≠ 0) :
    ∃ s', seedOnboardingStepsIfEmpty noFail now s = .ok s' ∧ s'.db = s.db := by
  exact ⟨_, seed_skip_eq h, rfl⟩

/-- The store-state invariant one run of init_mongo.js establishes: both
collections exist with the normalized validator policy, every configured
index name is live, and the reference collection is non-empty. -/
def reconciledDB (db : DB) : Prop :=
  (∃ cu, dbFind db "users" = some cu ∧ validatorNormalized usersSchema cu ∧
     ∀ idx ∈ usersIndexSpecs,
       includes (cu.indexes.map (fun i => i.name)) idx.name = true) ∧
  (∃ cs, dbFind db "onboarding_steps" = some cs ∧
     validatorNormalized onboardingStepsSchema cs ∧
     (∀ idx ∈ onboardingStepsIndexSpecs,
       includes (cs.indexes.map (fun i => i.name)) idx.name = true) ∧
     cs.docs.length ≠ 0)

theorem initMongo_establishes (now : Nat) (s : RunState) :
    ∃ s1, initMongo noFail now s = .ok s1 ∧ reconciledDB s1.db := by
  obtain ⟨sa, ha, ⟨cu, hcu, hnu⟩, hpa⟩ :=
    ensureCollection_establishes "users" usersSchema s
  obtain ⟨sb, hb, ⟨cs, hcs, hns⟩, hpb⟩ :=
    ensureCollection_establishes "onboarding_steps" onboardingStepsSchema sa
  have hcu2 : dbFind sb.db "users" = some cu := by
    rw [hpb "users" (by decide)]; exact hcu
  obtain ⟨sc, hc, ⟨cu3, hcu3, e1, e2, e3, e4, hall3⟩, hpc⟩ :=
    ensureIndexes_establishes usersIndexSpecs hcu2
  have hcs3 : dbFind sc.db "onboarding_steps" = some cs := by
    rw [hpc "onboarding_steps" (by decide)]; exact hcs
  obtain ⟨sd, hd, ⟨cs4, hcs4, f1, f2, f3, f4, hall4⟩, hpd⟩ :=
    ensureIndexes_establishes onboardingStepsIndexSpecs hcs3
  have hcu4 : dbFind sd.db "users" = some cu3 := by
    rw [hpd "users" (by decide)]; exact hcu3
  obtain ⟨se, he, ⟨cs5, hcs5, g1, g2, g3, g4, g5⟩, hpe⟩ := seed_establishes hcs4
  have hcu5 : dbFind se.db "users" = some cu3 := by
    rw [hpe "users" (by decide)]; exact hcu4
  refine ⟨se, ?_, ?_, ?_⟩
  · simp only [initMongo, ha, hb, hc, hd]
    exact he
  · refine ⟨cu3, hcu5, ⟨?_, ?_, ?_⟩, hall3⟩
    · rw [e1]; exact hnu.1
    · rw [e2]; exact hnu.2.1
    · rw [e3]; exact hnu.2.2
  · refine ⟨cs5, hcs5, ⟨?_, ?_, ?_⟩, ?_, g5⟩
    · rw [g1, f1]; exact hns.1
    · rw [g2, f2]; exact hns.2.1
    · rw [g3, f3]; exact hns.2.2
    · intro idx hmem
      rw [g4]
      exact hall4 idx hmem

theorem initMongo_noop (now : Nat) (s : RunState) (h : reconciledDB s.db) :
    ∃ s2, initMongo noFail now s = .ok s2 ∧ s2.db = s.db := by
  obtain ⟨⟨cu, hcu, hnu, hiu⟩, ⟨cs, hcs, hns, his, hdocs⟩⟩ := h
  obtain ⟨sa, ha, hda⟩ := ensureCollection_idem hcu hnu
  have hcsa : dbFind sa.db "onboarding_steps" = some cs := by rw [hda]; exact hcs
  obtain ⟨sb, hb, hdb⟩ := ensureCollection_idem hcsa hns
  have hcub : dbFind sb.db "users" = some cu := by rw [hdb, hda]; exact hcu
  obtain ⟨sc, hc, hdc⟩ := ensureIndexes_noop hcub hiu
  have hcsc : dbFind sc.db "onboarding_steps" = some cs := by
    rw [hdc, hdb, hda]; exact hcs
  obtain ⟨sd, hd, hdd⟩ := ensureIndexes_noop hcsc his
  have hcount : estimatedDocumentCount sd.db "onboarding_steps" ≠ 0 := by
    rw [hdd, hdc, hdb, hda]
    simp [estimatedDocumentCount, hcs, hdocs]
  obtain ⟨se, he, hde⟩ := seed_noop hcount
  refine ⟨se, ?_, ?_⟩
  · simp only [initMongo, ha, hb, hc, hd]
    exact he
  · rw [hde, hdd, hdc, hdb, hda]

/-! The claims. -/

/-- Claim C1: applying the full reconciliation sequence (ensure both
collections, ensure both index sets, seed if empty) twice, starting from
any initial store state, yields a store state identical to applying it
once: no duplicate collections, no duplicate indexes, no duplicate seed
records. -/
theorem initMongo_reconciliation_idempotent (now now' : Nat) (s : RunState) :
    ∃ s1 s2, initMongo noFail now s = .ok s1 ∧
      initMongo noFail now' s1 = .ok s2 ∧ s2.db = s1.db := by
  obtain ⟨s1, h1, hr⟩ := initMongo_establishes now s
  obtain ⟨s2, h2, hd⟩ := initMongo_noop now' s1 hr
  exact ⟨s1, s2, h1, h2, hd⟩

/-- Claim C2: on a store where the collection is absent,
ensureCollectionWithValidator issues exactly one create-collection call
(carrying the validator and the validation policy) and no collMod call; on
a store where it is present, exactly one collMod call and no create call;
never both. -/
theorem ensureCollection_branching (name : String) (v : JsValue) (db : DB) :
    ∃ s', ensureCollectionWithValidator noFail name v []
        { db := db, trace := [], output := [] } = .ok s' ∧
      s'.trace = [if includes (getCollectionNames db) name then
          StoreOp.collMod name (JsValue.obj [("$jsonSchema", v)]) "moderate" "error"
        else
          StoreOp.createCollection name (objectAssign (defaultCreateOpts v) [])] ∧
      s'.trace.countP StoreOp.isCreateCollection =
        (if includes (getCollectionNames db) name then 0 else 1) ∧
      s'.trace.countP StoreOp.isCollMod =
        (if includes (getCollectionNames db) name then 1 else 0) ∧
      lookupField (objectAssign (defaultCreateOpts v) []) "validator" =
        some (.obj [("$jsonSchema", v)]) ∧
      lookupField (objectAssign (defaultCreateOpts v) []) "validationLevel" =
        some (.str "moderate") ∧
      lookupField (objectAssign (defaultCreateOpts v) []) "validationAction" =
        some (.str "error") := by
  cases hinc : includes (getCollectionNames db) name with
  | true =>
      cases hfind : dbFind db name with
      | none => rw [not_includes_of_dbFind_none hfind] at hinc; cases hinc
      | some c =>
          refine ⟨_,
            ensureCollection_update_eq (s := { db := db, trace := [], output := [] }) hfind,
            ?_, ?_, ?_, ?_, ?_, ?_⟩
          · simp
          · simp [StoreOp.isCreateCollection, StoreOp.isCollMod]
          · simp [StoreOp.isCreateCollection, StoreOp.isCollMod]
          · simp [objectAssign_nil, defaultCreateOpts, lookupField]
          · simp [objectAssign_nil, defaultCreateOpts, lookupField]
          · simp [objectAssign_nil, defaultCreateOpts, lookupField]
  | false =>
      refine ⟨_,
        ensureCollection_create_eq (s := { db := db, trace := [], output := [] }) hinc,
        ?_, ?_, ?_, ?_, ?_, ?_⟩
      · simp
      · simp [StoreOp.isCreateCollection, StoreOp.isCollMod]
      · simp [StoreOp.isCreateCollection, StoreOp.isCollMod]
      · simp [objectAssign_nil, defaultCreateOpts, lookupField]
      · simp [objectAssign_nil, defaultCreateOpts, lookupField]
      · simp [objectAssign_nil, defaultCreateOpts, lookupField]

/-- Claim C3: for every call to ensureIndexes, a create-index command is
issued exactly for the specs whose name is absent from the live index-name
list fetched at the start, in spec order; specs whose name is present are
skipped unconditionally, whatever their key, uniqueness flag or filter. -/
theorem ensureIndexes_skip_by_name (name : String) (specs : List IndexSpec)
    (db : DB) :
    ∃ s', ensureIndexes noFail name specs
        { db := db, trace := [], output := [] } = .ok s' ∧
      s'.trace = (specs.filter (fun idx =>
          !(includes ((getIndexes db name).map (fun i => i.name)) idx.name))).map
        (fun idx => StoreOp.createIndex name idx) := by
  refine ⟨_, ensureIndexes_ok name specs _, ?_⟩
  rw [foldl_applyIndexStep_trace]
  simp

/-- Claim C4: when the reference collection holds at least one document
the seed block performs zero inserts and reports the existing count; when
it is empty it performs exactly one bulk insert of the 4 configured seed
records, in sequence order. -/
theorem seedIfEmpty_guard (now : Nat) (db : DB) :
    ∃ s', seedOnboardingStepsIfEmpty noFail now
        { db := db, trace := [], output := [] } = .ok s' ∧
      (if estimatedDocumentCount db "onboarding_steps" = 0 then
        s'.trace = [StoreOp.insertMany "onboarding_steps" (seedSteps now)] ∧
        (seedSteps now).length = 4 ∧
        s'.output = ["Seeded onboarding_steps with default steps"]
      else
        s'.trace = [] ∧ s'.db = db ∧
        s'.output = ["onboarding_steps already contains " ++
          toString (estimatedDocumentCount db "onboarding_steps") ++ " documents"]) := by
  by_cases hz : estimatedDocumentCount db "onboarding_steps" = 0
  · refine ⟨_, seed_insert_eq (s := { db := db, trace := [], output := [] }) hz, ?_⟩
    rw [if_pos hz]
    refine ⟨?_, ?_, ?_⟩
    · simp [printLine]
    · simp [seedSteps]
    · simp [printLine]
  · refine ⟨_, seed_skip_eq (s := { db := db, trace := [], output := [] }) hz, ?_⟩
    rw [if_neg hz]
    exact ⟨rfl, rfl, rfl⟩

/-- Claim C5 as stated is refuted: on a fresh database the run issues 8
create-index commands, 6 of them on the users collection, not the claimed
7 and 5. -/
theorem fresh_database_seven_indexes_refuted :
    (initMongo noFail 0 freshState).map (fun s =>
      (s.trace.countP StoreOp.isCreateIndex,
       (s.trace.filterMap StoreOp.createdIndexInfo).countP
         (fun p => p.1 == "users"))) = .ok (8, 6) ∧
    (8 ≠ 7 ∧ 6 ≠ 5) := ⟨rfl, by decide⟩

/-- Claim C5 (amended): starting from a store with no collections, the
full sequence creates the 2 collections with validators, creates 8 indexes
(6 on users, 2 on onboarding_steps) named exactly uniq_email,
uniq_username, oauth_provider_id, onboarding_currentStep, createdAt_desc,
updatedAt_desc, uniq_key, order_asc, and bulk-inserts the 4 seed records
into onboarding_steps. -/
theorem fresh_database_scenario :
    (initMongo noFail 0 freshState).map (fun s =>
      (s.trace.filterMap StoreOp.createdCollectionName,
       s.trace.countP StoreOp.carriesValidator,
       s.trace.filterMap StoreOp.createdIndexInfo,
       s.trace.filterMap StoreOp.insertedDocsInfo)) =
    .ok (["users", "onboarding_steps"], 2,
      [("users", "uniq_email"), ("users", "uniq_username"),
       ("users", "oauth_provider_id"), ("users", "onboarding_currentStep"),
       ("users", "createdAt_desc"), ("users", "updatedAt_desc"),
       ("onboarding_steps", "uniq_key"), ("onboarding_steps", "order_asc")],
      [("onboarding_steps", 4)]) := rfl

/-- A store that already holds a users collection, for the concrete
counterexamples below. -/
def presentUsersDB : DB :=
  [("users",
    { validator := none, validationLevel := none, validationAction := none,
      indexes := [idIndex], docs := [] })]

/-- Claim C6 as stated is refuted: on a store where users exists, the
issued collMod command carries validationAction error, not a warn-tolerant
action. -/
theorem ensureCollection_warn_action_refuted :
    (ensureCollectionWithValidator noFail "users" usersSchema []
        { db := presentUsersDB, trace := [], output := [] }).map
      (fun s => s.trace.filterMap StoreOp.issuedValidationAction) =
      .ok [JsValue.str "error"] ∧
    JsValue.str "error" ≠ JsValue.str "warn" := ⟨rfl, by simp⟩

/-- Claim C6 (amended): in both the create and the update branch,
ensureCollectionWithValidator applies validationLevel moderate together
with validationAction error; it is the moderate level (not a warn action)
that keeps existing non-conforming documents from being rejected
retroactively. -/
theorem ensureCollection_moderate_error_policy (name : String) (v : JsValue)
    (db : DB) :
    ∃ s', ensureCollectionWithValidator noFail name v []
        { db := db, trace := [], output := [] } = .ok s' ∧
      s'.trace.filterMap StoreOp.issuedValidationLevel = [JsValue.str "moderate"] ∧
      s'.trace.filterMap StoreOp.issuedValidationAction = [JsValue.str "error"] := by
  cases hinc : includes (getCollectionNames db) name with
  | true =>
      cases hfind : dbFind db name with
      | none => rw [not_includes_of_dbFind_none hfind] at hinc; cases hinc
      | some c =>
          refine ⟨_,
            ensureCollection_update_eq (s := { db := db, trace := [], output := [] }) hfind,
            ?_, ?_⟩
          · simp [StoreOp.issuedValidationLevel]
          · simp [StoreOp.issuedValidationAction]
  | false =>
      refine ⟨_,
        ensureCollection_create_eq (s := { db := db, trace := [], output := [] }) hinc,
        ?_, ?_⟩
      · simp [StoreOp.issuedValidationLevel, objectAssign_nil, defaultCreateOpts,
              lookupField]
      · simp [StoreOp.issuedValidationAction, objectAssign_nil, defaultCreateOpts,
              lookupField]

/-- Claim C7: a failure of the underlying store during
ensureCollectionWithValidator, in either branch, propagates to the caller
as the StoreErr itself: the call does not return success, issues no second
attempt, and leaves the store state reached so far (including prior
steps' effects) untouched. -/
theorem ensureCollection_storeError_propagation (fail : Oracle) (name : String)
    (v : JsValue) (opts : List (String × JsValue)) (s : RunState) (e : StoreErr) :
    (includes (getCollectionNames s.db) name = false →
      fail (.createCollection name (objectAssign (defaultCreateOpts v) opts)) = some e →
      ensureCollectionWithValidator fail name v opts s = .error (e, s)) ∧
    (includes (getCollectionNames s.db) name = true →
      fail (.collMod name (.obj [("$jsonSchema", v)]) "moderate" "error") = some e →
      ensureCollectionWithValidator fail name v opts s = .error (e, s)) := by
  constructor
  · intro hinc hf
    simp [ensureCollectionWithValidator, hinc, runOp, hf]
  · intro hinc hf
    simp [ensureCollectionWithValidator, hinc, runOp, hf]

/-- A store refusing every write, for the witness below. -/
def failAllOracle : Oracle := fun _ => some { message := "boom" }

/-- Witness for the store-error propagation claim at concrete inputs
covering both branches. -/
theorem ensureCollection_storeError_propagation_witness :
    ensureCollectionWithValidator failAllOracle "users" JsValue.null []
        freshState = .error ({ message := "boom" }, freshState) ∧
    ensureCollectionWithValidator failAllOracle "users" JsValue.null []
        { db := presentUsersDB, trace := [], output := [] } =
      .error ({ message := "boom" },
        { db := presentUsersDB, trace := [], output := [] }) :=
  ⟨(ensureCollection_storeError_propagation failAllOracle "users" JsValue.null []
      freshState { message := "boom" }).1 rfl rfl,
   (ensureCollection_storeError_propagation failAllOracle "users" JsValue.null []
      { db := presentUsersDB, trace := [], output := [] } { message := "boom" }).2
      rfl rfl⟩

/-- Claim C8: the seed record set consists of exactly four records with
keys account (order 0, required), profile (order 1, required), preferences
(order 2, not required), summary (order 3, required), each carrying a
title and a description. -/
theorem seed_record_content (now : Nat) :
    (seedSteps now).map (fun d =>
      (d.lookup "key", d.lookup "order", d.lookup "isRequired",
       (d.lookup "title").isSome, (d.lookup "description").isSome)) =
    [(some (.str "account"), some (.int 0), some (.bool true), true, true),
     (some (.str "profile"), some (.int 1), some (.bool true), true, true),
     (some (.str "preferences"), some (.int 2), some (.bool false), true, true),
     (some (.str "summary"), some (.int 3), some (.bool true), true, true)] ∧
    (seedSteps now).length = 4 := ⟨rfl, rfl⟩

/-- Claim C9: when the seed insert happens it is one bulk insert whose
four records all carry the single clock reading now in both createdAt and
updatedAt. -/
theorem seed_timestamps_single_clock (now : Nat) (db : DB) :
    ∃ s', seedOnboardingStepsIfEmpty noFail now
        { db := db, trace := [], output := [] } = .ok s' ∧
      (if estimatedDocumentCount db "onboarding_steps" = 0 then
        s'.trace = [StoreOp.insertMany "onboarding_steps" (seedSteps now)] ∧
        (seedSteps now).map (fun d => (d.lookup "createdAt", d.lookup "updatedAt")) =
          List.replicate 4 (some (.date now), some (.date now))
      else s'.trace = []) := by
  by_cases hz : estimatedDocumentCount db "onboarding_steps" = 0
  · refine ⟨_, seed_insert_eq (s := { db := db, trace := [], output := [] }) hz, ?_⟩
    rw [if_pos hz]
    exact ⟨by simp [printLine], rfl⟩
  · refine ⟨_, seed_skip_eq (s := { db := db, trace := [], output := [] }) hz, ?_⟩
    rw [if_neg hz]
    rfl

/-- Claim C10: when the collection exists, the collMod command sent to the
store is one fixed command (validator plus hard-coded moderate level and
error action) independent of the caller-supplied options, whereas in the
create branch the options entries override the defaults of the issued
createCollection command. -/
theorem collMod_options_independence (name : String) (v : JsValue)
    (options options' : List (String × JsValue)) (db : DB) :
    (includes (getCollectionNames db) name = true →
      ensureCollectionWithValidator noFail name v options
          { db := db, trace := [], output := [] } =
        ensureCollectionWithValidator noFail name v options'
          { db := db, trace := [], output := [] } ∧
      ensureCollectionWithValidator noFail name v options
          { db := db, trace := [], output := [] } =
        .ok { db := applyOp (.collMod name (.obj [("$jsonSchema", v)]) "moderate" "error") db,
              trace := [.collMod name (.obj [("$jsonSchema", v)]) "moderate" "error"],
              output := ["Updated validator for existing collection " ++ name] }) ∧
    (includes (getCollectionNames db) name = false →
      ensureCollectionWithValidator noFail name v options
          { db := db, trace := [], output := [] } =
        .ok { db := applyOp
                (.createCollection name (objectAssign (defaultCreateOpts v) options)) db,
              trace := [.createCollection name (objectAssign (defaultCreateOpts v) options)],
              output := ["Created collection " ++ name ++ " with schema validation"] }) ∧
    (∀ w, lookupField options "validator" = some w →
      lookupField (objectAssign (defaultCreateOpts v) options) "validator" = some w) ∧
    (∀ w, lookupField options "validationLevel" = some w →
      lookupField (objectAssign (defaultCreateOpts v) options) "validationLevel" = some w) ∧
    (∀ w, lookupField options "validationAction" = some w →
      lookupField (objectAssign (defaultCreateOpts v) options) "validationAction" = some w) := by
  refine ⟨?_, ?_, ?_, ?_, ?_⟩
  · intro hinc
    constructor
    · simp [ensureCollectionWithValidator, hinc]
    · simp [ensureCollectionWithValidator, hinc, runOp, noFail, applyOp, printLine]
  · intro hinc
    simp [ensureCollectionWithValidator, hinc, runOp, noFail, applyOp, printLine]
  · intro w hw
    simp [objectAssign, defaultCreateOpts, lookupField, hw]
  · intro w hw
    simp [objectAssign, defaultCreateOpts, lookupField, hw]
  · intro w hw
    simp [objectAssign, defaultCreateOpts, lookupField, hw]

/-- Witness for the options-independence claim: with a present users
collection the two calls agree for different options; with an absent
collection the supplied validationAction warn overrides the default in
the merged createCollection options. -/
theorem collMod_options_independence_witness :
    (ensureCollectionWithValidator noFail "users" JsValue.null
        [("validationAction", JsValue.str "warn")]
        { db := presentUsersDB, trace := [], output := [] } =
      ensureCollectionWithValidator noFail "users" JsValue.null []
        { db := presentUsersDB, trace := [], output := [] }) ∧
    ensureCollectionWithValidator noFail "users" JsValue.null
        [("validationAction", JsValue.str "warn")]
        { db := [], trace := [], output := [] } =
      .ok { db := applyOp
              (.createCollection "users"
                (objectAssign (defaultCreateOpts JsValue.null)
                  [("validationAction", JsValue.str "warn")])) [],
            trace := [.createCollection "users"
              (objectAssign (defaultCreateOpts JsValue.null)
                [("validationAction", JsValue.str "warn")])],
            output := ["Created collection users with schema validation"] } ∧
    lookupField (objectAssign (defaultCreateOpts JsValue.null)
        [("validationAction", JsValue.str "warn")]) "validationAction" =
      some (JsValue.str "warn") :=
  ⟨((collMod_options_independence "users" JsValue.null
      [("validationAction", JsValue.str "warn")] [] presentUsersDB).1 rfl).1,
   (collMod_options_independence "users" JsValue.null
      [("validationAction", JsValue.str "warn")] [] []).2.1 rfl,
   (collMod_options_independence "users" JsValue.null
      [("validationAction", JsValue.str "warn")] [] []).2.2.2.2
      (JsValue.str "warn") rfl⟩
